import Mathlib

/-! # Streaming audio playout engine: shallow embedding

Definitions below translate the playout engine of the `prompt-dj-app`
component (src/src/index.tsx).  Device-clock instants and buffer durations are
rationals; every operation that reads `audioContext.currentTime` receives the
clock value `now` as an explicit argument.  Decoded buffers carry a numeric
identifier so that the order of buffers in lists is observable.  Asynchronous
callbacks (`decodeAudioData(...).then`, `requestAnimationFrame`, UI handlers)
are modelled as atomic state-transition functions; the admissible interleaving
of those events is captured by the `Reachable` relation further down. -/

/-- Transport states of the player (type `PlaybackState` in the source). -/
inductive PlaybackState where
  | stopped
  | playing
  | loading
  | paused
deriving DecidableEq

/-- a decoded PCM buffer (`AudioBuffer`): only its identity and its duration in
seconds are relevant to scheduling. -/
structure AudioBuffer where
  id : ℕ
  duration : ℚ
deriving DecidableEq

/-- a live scheduled unit: an `AudioBufferSourceNode` on which
`source.start(startTime, offset)` has been called. -/
structure ScheduledUnit where
  buf : AudioBuffer
  startTime : ℚ
  offset : ℚ
deriving DecidableEq

/-- the mutable fields of the `prompt-dj-app` component that the playout engine
reads or writes.  `hasSession` models whether `this.session` is defined, and
`gainTarget` models the value the output gain node is ramped towards. -/
structure PlayerState where
  playbackState : PlaybackState
  totalDuration : ℚ
  currentPlaybackTime : ℚ
  activeSources : List ScheduledUnit
  decodedAudioBuffers : List AudioBuffer
  isSeeking : Bool
  streamStartTime : ℚ
  receivedAudioChunks : List (List ℕ)
  nextStartTime : ℚ
  hasSession : Bool
  gainTarget : ℚ
deriving DecidableEq

/-- the look-ahead constant `bufferTime = 1.0` of the source. -/
def bufferTime : ℚ := 1

/-- the component state right after construction: stopped, with every clock
pointer and store empty. -/
def initState : PlayerState where
  playbackState := .stopped
  totalDuration := 0
  currentPlaybackTime := 0
  activeSources := []
  decodedAudioBuffers := []
  isSeeking := false
  streamStartTime := 0
  receivedAudioChunks := []
  nextStartTime := 0
  hasSession := false
  gainTarget := 1

/-- one run of the `updateProgress` callback: while seeking it does nothing,
while not `playing` or `loading` it returns early, otherwise it sets the
cursor to `clamp(now - streamStartTime, 0, totalDuration)`. -/
def updateProgress (s : PlayerState) (now : ℚ) : PlayerState :=
  if s.isSeeking then s
  else if s.playbackState ≠ .playing ∧ s.playbackState ≠ .loading then s
  else
    { s with currentPlaybackTime := max 0 (min (now - s.streamStartTime) s.totalDuration) }

/-- arrival of one `audioChunk` message: the first half of
`handleServerMessage`, which base64-decodes the payload and pushes it onto
`receivedAudioChunks`. -/
def chunkArrival (s : PlayerState) (chunk : List ℕ) : PlayerState :=
  { s with receivedAudioChunks := s.receivedAudioChunks ++ [chunk] }

/-- completion of one `decodeAudioData(...).then` callback inside
`handleServerMessage`: push the decoded buffer, return early when paused or
stopped, otherwise account its duration, seed `nextStartTime` (and the stream
origin) with the look-ahead when it is still 0, promote `loading` to
`playing`, clamp a `nextStartTime` that the device clock has overtaken, start
the source and advance `nextStartTime` by the buffer duration. -/
def decodeComplete (s : PlayerState) (audioBuffer : AudioBuffer) (now : ℚ) :
    PlayerState :=
  let s1 := { s with
    decodedAudioBuffers := s.decodedAudioBuffers ++ [audioBuffer] }
  if s1.playbackState = .paused ∨ s1.playbackState = .stopped then s1
  else
    let s2 := { s1 with totalDuration := s1.totalDuration + audioBuffer.duration }
    let s3 :=
      if s2.nextStartTime = 0 then
        updateProgress
          { s2 with
            nextStartTime := now + bufferTime
            streamStartTime := now + bufferTime } now
      else s2
    let s4 :=
      if s3.playbackState = .loading then { s3 with playbackState := .playing }
      else s3
    let s5 :=
      if s4.nextStartTime < now then { s4 with nextStartTime := now } else s4
    { s5 with
      activeSources := s5.activeSources ++ [⟨audioBuffer, s5.nextStartTime, 0⟩]
      nextStartTime := s5.nextStartTime + audioBuffer.duration }

/-- the `clearAllSources` helper: stop every live source and empty the list. -/
def clearAllSources (s : PlayerState) : PlayerState :=
  { s with activeSources := [] }

/-- the `pauseAudio` handler: with no session it does nothing; otherwise it
pauses the remote session, enters `paused`, ramps the gain to 0 and cancels
every live source. -/
def pauseAudio (s : PlayerState) : PlayerState :=
  if s.hasSession = false then s
  else clearAllSources { s with playbackState := .paused, gainTarget := 0 }

/-- the `stopAudio` handler (also `handleReset`): full session teardown. -/
def stopAudio (s : PlayerState) : PlayerState :=
  { s with
    hasSession := false
    activeSources := []
    playbackState := .stopped
    nextStartTime := 0
    totalDuration := 0
    currentPlaybackTime := 0
    streamStartTime := 0
    receivedAudioChunks := []
    decodedAudioBuffers := [] }

/-- the `loadAudio` handler: with no session it does nothing; otherwise it
runs `updateProgress` once (against the state before the transition), asks the
session to play, moves `paused` to `playing` and anything else to `loading`,
and ramps the gain back to 1. -/
def loadAudio (s : PlayerState) (now : ℚ) : PlayerState :=
  if s.hasSession = false then s
  else
    let s1 := updateProgress s now
    { s1 with
      playbackState := if s1.playbackState = .paused then .playing else .loading
      gainTarget := 1 }

/-- the `scheduleBuffer` helper: start a source for `buffer` at `startTime`
with intra-buffer `offset` and advance `nextStartTime` by the remaining
duration. -/
def scheduleBuffer (s : PlayerState) (buffer : AudioBuffer)
    (startTime offset : ℚ) : PlayerState :=
  { s with
    activeSources := s.activeSources ++ [⟨buffer, startTime, offset⟩]
    nextStartTime := startTime + (buffer.duration - offset) }

/-- the scan over `decodedAudioBuffers` inside `seekToTime`, carrying the
`accumulatedDuration` and `hasScheduled` loop variables of the source. -/
def seekLoop (seekTime : ℚ) :
    List AudioBuffer → ℚ → Bool → PlayerState → PlayerState
  | [], _, _, s => s
  | buffer :: rest, accumulatedDuration, hasScheduled, s =>
    let bufferEnd := accumulatedDuration + buffer.duration
    if hasScheduled = false ∧ seekTime ≤ bufferEnd then
      seekLoop seekTime rest bufferEnd true
        (scheduleBuffer s buffer s.nextStartTime (seekTime - accumulatedDuration))
    else if hasScheduled = true then
      seekLoop seekTime rest bufferEnd true
        (scheduleBuffer s buffer s.nextStartTime 0)
    else
      seekLoop seekTime rest bufferEnd false s

/-- the `seekToTime` method: cancel all live sources, reposition cursor,
stream origin and `nextStartTime`, rebuild the schedule by scanning the
timeline, and if the transport was paused resume it. -/
def seekToTime (s : PlayerState) (now seekTime : ℚ) : PlayerState :=
  let s1 := { (clearAllSources s) with
    currentPlaybackTime := seekTime
    streamStartTime := now - seekTime
    nextStartTime := now }
  let s2 := seekLoop seekTime s1.decodedAudioBuffers 0 false s1
  if s2.playbackState = .paused then { s2 with playbackState := .playing }
  else s2

/-- the first statement of `connectToSession`: the transport is put into
`loading` before the connection attempt. -/
def connectStart (s : PlayerState) : PlayerState :=
  { s with playbackState := .loading }

/-- the success path of `connectToSession`: the session object is assigned and
`loadAudio` runs. -/
def connectSuccess (s : PlayerState) (now : ℚ) : PlayerState :=
  loadAudio { s with hasSession := true } now

/-- the catch branch of `connectToSession`: the transport is forced back to
`stopped` (the session was never assigned). -/
def connectFail (s : PlayerState) : PlayerState :=
  { s with playbackState := .stopped }

/-- cumulative duration of a list of decoded buffers. -/
def sumDur (l : List AudioBuffer) : ℚ :=
  (l.map AudioBuffer.duration).sum

/-- states of the component obtainable by running the engine's event handlers
from the initial state, with each step guarded exactly as its call sites are
in the source: `connectToSession` only runs with no session from the
play/pause button (state `stopped` or `paused`), its continuation and failure
only fire while the connection is `loading`, `loadAudio` is invoked from the
play/pause button (never while `playing`), and `handleSeek` refuses to seek
while `stopped` or with a zero `totalDuration`.  Chunk arrival, decode
completion, progress ticks, pause and reset may fire at any time. -/
inductive Reachable : PlayerState → Prop
  | init : Reachable initState
  | connectStart {s} : Reachable s → s.hasSession = false →
      s.playbackState = .stopped ∨ s.playbackState = .paused →
      Reachable (connectStart s)
  | connectSuccess {s} (now : ℚ) : Reachable s → s.hasSession = false →
      s.playbackState = .loading → Reachable (connectSuccess s now)
  | connectFail {s} : Reachable s → s.playbackState = .loading →
      Reachable (connectFail s)
  | chunkArrival {s} (chunk : List ℕ) : Reachable s →
      Reachable (chunkArrival s chunk)
  | decodeComplete {s} (audioBuffer : AudioBuffer) (now : ℚ) : Reachable s →
      Reachable (decodeComplete s audioBuffer now)
  | updateProgress {s} (now : ℚ) : Reachable s →
      Reachable (updateProgress s now)
  | pauseAudio {s} : Reachable s → Reachable (pauseAudio s)
  | loadAudio {s} (now : ℚ) : Reachable s → s.hasSession = true →
      s.playbackState ≠ .playing → Reachable (loadAudio s now)
  | stopAudio {s} : Reachable s → Reachable (stopAudio s)
  | seekToTime {s} (now seekTime : ℚ) : Reachable s →
      s.playbackState ≠ .stopped → s.totalDuration ≠ 0 →
      Reachable (seekToTime s now seekTime)

/-! ## WAV export

`handleDownloadWav` concatenates the raw chunk log and prefixes the 44-byte
canonical RIFF/WAVE header built by `writeWavHeader`.  Bytes are naturals. -/

/-- code units of a header tag string, as `writeString` inside
`writeWavHeader` stores them with `charCodeAt` (all tags are ASCII). -/
def tagBytes (str : String) : List ℕ :=
  str.data.map Char.toNat

/-- little-endian byte pair stored by `view.setUint16(offset, v, true)`. -/
def u16le (v : ℕ) : List ℕ :=
  [v % 256, v / 256 % 256]

/-- little-endian byte quadruple stored by `view.setUint32(offset, v, true)`
(the JavaScript call wraps the value modulo 2 to the 32, which these four
bytes reproduce). -/
def u32le (v : ℕ) : List ℕ :=
  [v % 256, v / 256 % 256, v / 65536 % 256, v / 16777216 % 256]

/-- the 44-byte header built by `writeWavHeader(dataLength, sampleRate,
numChannels, bitsPerSample)`, with each `writeString`/`setUint16`/`setUint32`
call of the source laid down at its offset in order.  The source divides
`bitsPerSample / 8` with real division; at the only call site
`bitsPerSample = 16`, where natural division agrees. -/
def writeWavHeader (dataLength sampleRate numChannels bitsPerSample : ℕ) :
    List ℕ :=
  tagBytes "RIFF" ++ u32le (36 + dataLength) ++ tagBytes "WAVE" ++
    tagBytes "fmt " ++ u32le 16 ++ u16le 1 ++ u16le numChannels ++
    u32le sampleRate ++ u32le (sampleRate * numChannels * (bitsPerSample / 8)) ++
    u16le (numChannels * (bitsPerSample / 8)) ++ u16le bitsPerSample ++
    tagBytes "data" ++ u32le dataLength

/-- the `handleDownloadWav` handler up to the produced WAV byte sequence:
`none` when no chunk has been received; otherwise the header for the
concatenated chunk bytes at stereo 16-bit, followed by those bytes in
arrival order. -/
def handleDownloadWav (receivedAudioChunks : List (List ℕ)) (sampleRate : ℕ) :
    Option (List ℕ) :=
  if receivedAudioChunks.length = 0 then none
  else
    let totalLength := (receivedAudioChunks.map List.length).sum
    some (writeWavHeader totalLength sampleRate 2 16 ++ receivedAudioChunks.flatten)

/-- the stereo 16-bit header written out byte by byte. -/
lemma writeWavHeader_stereo16 (n sr : ℕ) :
    writeWavHeader n sr 2 16 =
      [82, 73, 70, 70,
       (36 + n) % 256, (36 + n) / 256 % 256, (36 + n) / 65536 % 256,
       (36 + n) / 16777216 % 256,
       87, 65, 86, 69,
       102, 109, 116, 32,
       16, 0, 0, 0,
       1, 0,
       2, 0,
       sr % 256, sr / 256 % 256, sr / 65536 % 256, sr / 16777216 % 256,
       sr * 2 * 2 % 256, sr * 2 * 2 / 256 % 256, sr * 2 * 2 / 65536 % 256,
       sr * 2 * 2 / 16777216 % 256,
       4, 0,
       16, 0,
       100, 97, 116, 97,
       n % 256, n / 256 % 256, n / 65536 % 256, n / 16777216 % 256] := rfl

/-- C7: for every accumulated raw byte sequence of positive length N, the WAV
export is exactly 44 + N bytes: the RIFF tag at offset 0, the little-endian
file size 36 + N at offset 4, PCM format code 1 at offset 20, channel count 2
at offset 22, the sample rate at offset 24, the byte rate
sampleRate * channels * bytesPerSample at offset 28, block align 4 at offset
32, bits per sample 16 at offset 34, the payload length N as a little-endian
4-byte integer at offset 40, and then the N payload bytes in arrival order. -/
theorem wav_export_layout (chunks : List (List ℕ)) (sampleRate : ℕ)
    (hN : 0 < chunks.flatten.length) :
    ∃ w, handleDownloadWav chunks sampleRate = some w
      ∧ w.length = 44 + chunks.flatten.length
      ∧ w.take 4 = tagBytes "RIFF"
      ∧ (w.drop 4).take 4 = u32le (36 + chunks.flatten.length)
      ∧ (w.drop 20).take 2 = u16le 1
      ∧ (w.drop 22).take 2 = u16le 2
      ∧ (w.drop 24).take 4 = u32le sampleRate
      ∧ (w.drop 28).take 4 = u32le (sampleRate * 2 * 2)
      ∧ (w.drop 32).take 2 = u16le 4
      ∧ (w.drop 34).take 2 = u16le 16
      ∧ (w.drop 40).take 4 = u32le chunks.flatten.length
      ∧ w.drop 44 = chunks.flatten := by
  have hne : ¬ chunks.length = 0 := by
    intro h
    rw [List.length_eq_zero] at h
    subst h
    simp at hN
  have hjoin : (chunks.map List.length).sum = chunks.flatten.length :=
    (List.length_flatten chunks).symm
  refine ⟨writeWavHeader chunks.flatten.length sampleRate 2 16 ++ chunks.flatten,
    ?_, ?_, ?_, ?_, ?_, ?_, ?_, ?_, ?_, ?_, ?_, ?_⟩
  · simp only [handleDownloadWav, hjoin]
    rw [if_neg hne]
  · rw [writeWavHeader_stereo16]
    simp only [List.length_append, List.length_cons, List.length_nil]
    try omega
  all_goals rw [writeWavHeader_stereo16]
  all_goals try rfl

/-- C7 witness: the export of the two arrival-ordered chunks [1, 2] and [3]
at 48000 Hz satisfies every header property at N = 3. -/
theorem wav_export_layout_witness :
    ∃ w, handleDownloadWav [[1, 2], [3]] 48000 = some w
      ∧ w.length = 44 + 3
      ∧ w.take 4 = tagBytes "RIFF"
      ∧ (w.drop 4).take 4 = u32le (36 + 3)
      ∧ (w.drop 20).take 2 = u16le 1
      ∧ (w.drop 22).take 2 = u16le 2
      ∧ (w.drop 24).take 4 = u32le 48000
      ∧ (w.drop 28).take 4 = u32le (48000 * 2 * 2)
      ∧ (w.drop 32).take 2 = u16le 4
      ∧ (w.drop 34).take 2 = u16le 16
      ∧ (w.drop 40).take 4 = u32le 3
      ∧ w.drop 44 = [1, 2, 3] :=
  wav_export_layout [[1, 2], [3]] 48000 (by decide)

/-! ## Projection lemmas for the operations -/

@[simp] lemma sumDur_nil : sumDur [] = 0 := rfl

@[simp] lemma sumDur_cons (b : AudioBuffer) (l : List AudioBuffer) :
    sumDur (b :: l) = b.duration + sumDur l := by
  simp [sumDur]

@[simp] lemma sumDur_append (l₁ l₂ : List AudioBuffer) :
    sumDur (l₁ ++ l₂) = sumDur l₁ + sumDur l₂ := by
  simp [sumDur]

lemma sumDur_nonneg (l : List AudioBuffer) (h : ∀ x ∈ l, 0 ≤ x.duration) :
    0 ≤ sumDur l := by
  induction l with
  | nil => simp
  | cons x xs ih =>
    have hx := h x (by simp)
    have hxs := ih fun y hy => h y (by simp [hy])
    simp only [sumDur_cons]
    linarith

lemma updateProgress_proj (s : PlayerState) (now : ℚ) :
    (updateProgress s now).playbackState = s.playbackState
    ∧ (updateProgress s now).totalDuration = s.totalDuration
    ∧ (updateProgress s now).activeSources = s.activeSources
    ∧ (updateProgress s now).decodedAudioBuffers = s.decodedAudioBuffers
    ∧ (updateProgress s now).receivedAudioChunks = s.receivedAudioChunks
    ∧ (updateProgress s now).nextStartTime = s.nextStartTime
    ∧ (updateProgress s now).streamStartTime = s.streamStartTime
    ∧ (updateProgress s now).hasSession = s.hasSession
    ∧ (updateProgress s now).isSeeking = s.isSeeking
    ∧ (updateProgress s now).gainTarget = s.gainTarget := by
  unfold updateProgress
  split
  · simp
  split
  · simp
  · simp

@[simp] lemma updateProgress_playbackState (s : PlayerState) (now : ℚ) :
    (updateProgress s now).playbackState = s.playbackState :=
  (updateProgress_proj s now).1

@[simp] lemma updateProgress_totalDuration (s : PlayerState) (now : ℚ) :
    (updateProgress s now).totalDuration = s.totalDuration :=
  (updateProgress_proj s now).2.1

@[simp] lemma updateProgress_activeSources (s : PlayerState) (now : ℚ) :
    (updateProgress s now).activeSources = s.activeSources :=
  (updateProgress_proj s now).2.2.1

@[simp] lemma updateProgress_decodedAudioBuffers (s : PlayerState) (now : ℚ) :
    (updateProgress s now).decodedAudioBuffers = s.decodedAudioBuffers :=
  (updateProgress_proj s now).2.2.2.1

@[simp] lemma updateProgress_receivedAudioChunks (s : PlayerState) (now : ℚ) :
    (updateProgress s now).receivedAudioChunks = s.receivedAudioChunks :=
  (updateProgress_proj s now).2.2.2.2.1

@[simp] lemma updateProgress_nextStartTime (s : PlayerState) (now : ℚ) :
    (updateProgress s now).nextStartTime = s.nextStartTime :=
  (updateProgress_proj s now).2.2.2.2.2.1

@[simp] lemma updateProgress_streamStartTime (s : PlayerState) (now : ℚ) :
    (updateProgress s now).streamStartTime = s.streamStartTime :=
  (updateProgress_proj s now).2.2.2.2.2.2.1

@[simp] lemma updateProgress_hasSession (s : PlayerState) (now : ℚ) :
    (updateProgress s now).hasSession = s.hasSession :=
  (updateProgress_proj s now).2.2.2.2.2.2.2.1

@[simp] lemma updateProgress_isSeeking (s : PlayerState) (now : ℚ) :
    (updateProgress s now).isSeeking = s.isSeeking :=
  (updateProgress_proj s now).2.2.2.2.2.2.2.2.1

@[simp] lemma updateProgress_gainTarget (s : PlayerState) (now : ℚ) :
    (updateProgress s now).gainTarget = s.gainTarget :=
  (updateProgress_proj s now).2.2.2.2.2.2.2.2.2

/-- cursor value written by a progress tick that is not seeking and finds the
transport `playing` or `loading`. -/
lemma updateProgress_currentPlaybackTime_active (s : PlayerState) (now : ℚ)
    (hseek : s.isSeeking = false)
    (h : s.playbackState = .playing ∨ s.playbackState = .loading) :
    (updateProgress s now).currentPlaybackTime
      = max 0 (min (now - s.streamStartTime) s.totalDuration) := by
  unfold updateProgress
  rcases h with h | h <;> simp [hseek, h]

/-- a progress tick leaves the cursor alone while seeking or while the
transport is neither `playing` nor `loading`. -/
lemma updateProgress_currentPlaybackTime_frozen (s : PlayerState) (now : ℚ)
    (h : s.isSeeking = true
      ∨ (s.playbackState ≠ .playing ∧ s.playbackState ≠ .loading)) :
    (updateProgress s now).currentPlaybackTime = s.currentPlaybackTime := by
  unfold updateProgress
  rcases h with h | h
  · simp [h]
  · rcases h with ⟨h1, h2⟩
    split
    · rfl
    · simp [h1, h2]

@[simp] lemma scheduleBuffer_activeSources (s : PlayerState) (b : AudioBuffer)
    (t o : ℚ) :
    (scheduleBuffer s b t o).activeSources = s.activeSources ++ [⟨b, t, o⟩] := rfl

@[simp] lemma scheduleBuffer_nextStartTime (s : PlayerState) (b : AudioBuffer)
    (t o : ℚ) :
    (scheduleBuffer s b t o).nextStartTime = t + (b.duration - o) := rfl

@[simp] lemma scheduleBuffer_playbackState (s : PlayerState) (b : AudioBuffer)
    (t o : ℚ) : (scheduleBuffer s b t o).playbackState = s.playbackState := rfl

@[simp] lemma scheduleBuffer_totalDuration (s : PlayerState) (b : AudioBuffer)
    (t o : ℚ) : (scheduleBuffer s b t o).totalDuration = s.totalDuration := rfl

@[simp] lemma scheduleBuffer_decodedAudioBuffers (s : PlayerState)
    (b : AudioBuffer) (t o : ℚ) :
    (scheduleBuffer s b t o).decodedAudioBuffers = s.decodedAudioBuffers := rfl

@[simp] lemma scheduleBuffer_receivedAudioChunks (s : PlayerState)
    (b : AudioBuffer) (t o : ℚ) :
    (scheduleBuffer s b t o).receivedAudioChunks = s.receivedAudioChunks := rfl

@[simp] lemma scheduleBuffer_currentPlaybackTime (s : PlayerState)
    (b : AudioBuffer) (t o : ℚ) :
    (scheduleBuffer s b t o).currentPlaybackTime = s.currentPlaybackTime := rfl

@[simp] lemma scheduleBuffer_streamStartTime (s : PlayerState)
    (b : AudioBuffer) (t o : ℚ) :
    (scheduleBuffer s b t o).streamStartTime = s.streamStartTime := rfl

@[simp] lemma scheduleBuffer_hasSession (s : PlayerState) (b : AudioBuffer)
    (t o : ℚ) : (scheduleBuffer s b t o).hasSession = s.hasSession := rfl

@[simp] lemma scheduleBuffer_isSeeking (s : PlayerState) (b : AudioBuffer)
    (t o : ℚ) : (scheduleBuffer s b t o).isSeeking = s.isSeeking := rfl

/-- a projection that `scheduleBuffer` does not touch is also untouched by the
whole seek scan. -/
lemma seekLoop_preserves {α : Type} (f : PlayerState → α)
    (hf : ∀ s b t o, f (scheduleBuffer s b t o) = f s) (seekTime : ℚ)
    (l : List AudioBuffer) (acc : ℚ) (hs : Bool) (s : PlayerState) :
    f (seekLoop seekTime l acc hs s) = f s := by
  induction l generalizing acc hs s with
  | nil => rfl
  | cons x xs ih =>
    simp only [seekLoop]
    by_cases hc : hs = false ∧ seekTime ≤ acc + x.duration
    · rw [if_pos hc, ih, hf]
    · rw [if_neg hc]
      by_cases hc2 : hs = true
      · rw [if_pos hc2, ih, hf]
      · rw [if_neg hc2]
        exact ih _ _ _

@[simp] lemma seekLoop_playbackState (seekTime : ℚ) (l : List AudioBuffer)
    (acc : ℚ) (hs : Bool) (s : PlayerState) :
    (seekLoop seekTime l acc hs s).playbackState = s.playbackState :=
  seekLoop_preserves PlayerState.playbackState (fun _ _ _ _ => rfl) _ _ _ _ _

@[simp] lemma seekLoop_totalDuration (seekTime : ℚ) (l : List AudioBuffer)
    (acc : ℚ) (hs : Bool) (s : PlayerState) :
    (seekLoop seekTime l acc hs s).totalDuration = s.totalDuration :=
  seekLoop_preserves PlayerState.totalDuration (fun _ _ _ _ => rfl) _ _ _ _ _

@[simp] lemma seekLoop_currentPlaybackTime (seekTime : ℚ) (l : List AudioBuffer)
    (acc : ℚ) (hs : Bool) (s : PlayerState) :
    (seekLoop seekTime l acc hs s).currentPlaybackTime = s.currentPlaybackTime :=
  seekLoop_preserves PlayerState.currentPlaybackTime (fun _ _ _ _ => rfl) _ _ _ _ _

@[simp] lemma seekLoop_decodedAudioBuffers (seekTime : ℚ) (l : List AudioBuffer)
    (acc : ℚ) (hs : Bool) (s : PlayerState) :
    (seekLoop seekTime l acc hs s).decodedAudioBuffers = s.decodedAudioBuffers :=
  seekLoop_preserves PlayerState.decodedAudioBuffers (fun _ _ _ _ => rfl) _ _ _ _ _

@[simp] lemma seekLoop_receivedAudioChunks (seekTime : ℚ) (l : List AudioBuffer)
    (acc : ℚ) (hs : Bool) (s : PlayerState) :
    (seekLoop seekTime l acc hs s).receivedAudioChunks = s.receivedAudioChunks :=
  seekLoop_preserves PlayerState.receivedAudioChunks (fun _ _ _ _ => rfl) _ _ _ _ _

@[simp] lemma seekLoop_streamStartTime (seekTime : ℚ) (l : List AudioBuffer)
    (acc : ℚ) (hs : Bool) (s : PlayerState) :
    (seekLoop seekTime l acc hs s).streamStartTime = s.streamStartTime :=
  seekLoop_preserves PlayerState.streamStartTime (fun _ _ _ _ => rfl) _ _ _ _ _

@[simp] lemma seekLoop_hasSession (seekTime : ℚ) (l : List AudioBuffer)
    (acc : ℚ) (hs : Bool) (s : PlayerState) :
    (seekLoop seekTime l acc hs s).hasSession = s.hasSession :=
  seekLoop_preserves PlayerState.hasSession (fun _ _ _ _ => rfl) _ _ _ _ _

@[simp] lemma seekLoop_isSeeking (seekTime : ℚ) (l : List AudioBuffer)
    (acc : ℚ) (hs : Bool) (s : PlayerState) :
    (seekLoop seekTime l acc hs s).isSeeking = s.isSeeking :=
  seekLoop_preserves PlayerState.isSeeking (fun _ _ _ _ => rfl) _ _ _ _ _

@[simp] lemma seekLoop_gainTarget (seekTime : ℚ) (l : List AudioBuffer)
    (acc : ℚ) (hs : Bool) (s : PlayerState) :
    (seekLoop seekTime l acc hs s).gainTarget = s.gainTarget :=
  seekLoop_preserves PlayerState.gainTarget (fun _ _ _ _ => rfl) _ _ _ _ _

lemma seekToTime_proj (s : PlayerState) (now seekTime : ℚ) :
    (seekToTime s now seekTime).totalDuration = s.totalDuration
    ∧ (seekToTime s now seekTime).decodedAudioBuffers = s.decodedAudioBuffers
    ∧ (seekToTime s now seekTime).receivedAudioChunks = s.receivedAudioChunks
    ∧ (seekToTime s now seekTime).hasSession = s.hasSession
    ∧ (seekToTime s now seekTime).currentPlaybackTime = seekTime
    ∧ (seekToTime s now seekTime).streamStartTime = now - seekTime := by
  refine ⟨?_, ?_, ?_, ?_, ?_, ?_⟩ <;>
    · simp only [seekToTime, clearAllSources]
      split <;> simp

@[simp] lemma seekToTime_totalDuration (s : PlayerState) (now seekTime : ℚ) :
    (seekToTime s now seekTime).totalDuration = s.totalDuration :=
  (seekToTime_proj s now seekTime).1

@[simp] lemma seekToTime_decodedAudioBuffers (s : PlayerState) (now seekTime : ℚ) :
    (seekToTime s now seekTime).decodedAudioBuffers = s.decodedAudioBuffers :=
  (seekToTime_proj s now seekTime).2.1

@[simp] lemma seekToTime_receivedAudioChunks (s : PlayerState) (now seekTime : ℚ) :
    (seekToTime s now seekTime).receivedAudioChunks = s.receivedAudioChunks :=
  (seekToTime_proj s now seekTime).2.2.1

@[simp] lemma seekToTime_hasSession (s : PlayerState) (now seekTime : ℚ) :
    (seekToTime s now seekTime).hasSession = s.hasSession :=
  (seekToTime_proj s now seekTime).2.2.2.1

lemma seekToTime_playbackState (s : PlayerState) (now seekTime : ℚ) :
    (seekToTime s now seekTime).playbackState
      = if s.playbackState = .paused then .playing else s.playbackState := by
  simp only [seekToTime, clearAllSources]
  split <;> rename_i h <;> simp only [seekLoop_playbackState] at h ⊢ <;> simp [h]

lemma decodeComplete_proj (s : PlayerState) (b : AudioBuffer) (now : ℚ) :
    (decodeComplete s b now).decodedAudioBuffers = s.decodedAudioBuffers ++ [b]
    ∧ (decodeComplete s b now).receivedAudioChunks = s.receivedAudioChunks
    ∧ (decodeComplete s b now).hasSession = s.hasSession
    ∧ (decodeComplete s b now).isSeeking = s.isSeeking
    ∧ (decodeComplete s b now).gainTarget = s.gainTarget := by
  refine ⟨?_, ?_, ?_, ?_, ?_⟩ <;>
    · simp only [decodeComplete]
      repeat' split
      all_goals simp

@[simp] lemma decodeComplete_decodedAudioBuffers (s : PlayerState)
    (b : AudioBuffer) (now : ℚ) :
    (decodeComplete s b now).decodedAudioBuffers = s.decodedAudioBuffers ++ [b] :=
  (decodeComplete_proj s b now).1

@[simp] lemma decodeComplete_receivedAudioChunks (s : PlayerState)
    (b : AudioBuffer) (now : ℚ) :
    (decodeComplete s b now).receivedAudioChunks = s.receivedAudioChunks :=
  (decodeComplete_proj s b now).2.1

@[simp] lemma decodeComplete_hasSession (s : PlayerState) (b : AudioBuffer)
    (now : ℚ) : (decodeComplete s b now).hasSession = s.hasSession :=
  (decodeComplete_proj s b now).2.2.1

@[simp] lemma decodeComplete_isSeeking (s : PlayerState) (b : AudioBuffer)
    (now : ℚ) : (decodeComplete s b now).isSeeking = s.isSeeking :=
  (decodeComplete_proj s b now).2.2.2.1

@[simp] lemma decodeComplete_gainTarget (s : PlayerState) (b : AudioBuffer)
    (now : ℚ) : (decodeComplete s b now).gainTarget = s.gainTarget :=
  (decodeComplete_proj s b now).2.2.2.2

/-- a decode that completes while paused or stopped changes nothing except the
timeline. -/
lemma decodeComplete_inactive (s : PlayerState) (b : AudioBuffer) (now : ℚ)
    (h : s.playbackState = .paused ∨ s.playbackState = .stopped) :
    (decodeComplete s b now).activeSources = s.activeSources
    ∧ (decodeComplete s b now).nextStartTime = s.nextStartTime
    ∧ (decodeComplete s b now).currentPlaybackTime = s.currentPlaybackTime
    ∧ (decodeComplete s b now).totalDuration = s.totalDuration
    ∧ (decodeComplete s b now).playbackState = s.playbackState
    ∧ (decodeComplete s b now).streamStartTime = s.streamStartTime := by
  rcases h with h | h <;> simp [decodeComplete, h]

/-- start time assigned by `decodeComplete` when the transport allows
scheduling: the (possibly seeded) `nextStartTime`, clamped to `now` when the
device clock has overtaken it. -/
def decodeStartTime (s : PlayerState) (now : ℚ) : ℚ :=
  let seeded := if s.nextStartTime = 0 then now + bufferTime else s.nextStartTime
  if seeded < now then now else seeded

/-- a decode that completes while playing or loading starts exactly one new
source, for its own buffer, at `decodeStartTime`, and advances `nextStartTime`
past it; the stream origin is (re)anchored only when seeding. -/
lemma decodeComplete_active (s : PlayerState) (b : AudioBuffer) (now : ℚ)
    (h : ¬(s.playbackState = .paused ∨ s.playbackState = .stopped)) :
    (decodeComplete s b now).activeSources
        = s.activeSources ++ [⟨b, decodeStartTime s now, 0⟩]
    ∧ (decodeComplete s b now).nextStartTime = decodeStartTime s now + b.duration
    ∧ (decodeComplete s b now).streamStartTime
        = (if s.nextStartTime = 0 then now + bufferTime else s.streamStartTime)
    ∧ (decodeComplete s b now).playbackState = .playing := by
  have hps : s.playbackState = .playing ∨ s.playbackState = .loading := by
    cases hx : s.playbackState <;> simp [hx] at h ⊢
  rcases hps with hps | hps <;>
    refine ⟨?_, ?_, ?_, ?_⟩ <;>
    · simp only [decodeComplete, decodeStartTime, hps]
      repeat' split
      all_goals simp_all [bufferTime]
      all_goals linarith

lemma decodeStartTime_seed (s : PlayerState) (now : ℚ)
    (h0 : s.nextStartTime = 0) : decodeStartTime s now = now + bufferTime := by
  have hlt : ¬ now + bufferTime < now := by rw [bufferTime]; linarith
  simp [decodeStartTime, h0, hlt]

lemma decodeStartTime_keep (s : PlayerState) (now : ℚ)
    (h0 : s.nextStartTime ≠ 0) (hle : now ≤ s.nextStartTime) :
    decodeStartTime s now = s.nextStartTime := by
  have hlt : ¬ s.nextStartTime < now := not_lt.mpr hle
  simp [decodeStartTime, h0, hlt]

lemma decodeStartTime_clamp (s : PlayerState) (now : ℚ)
    (h0 : s.nextStartTime ≠ 0) (hlt : s.nextStartTime < now) :
    decodeStartTime s now = now := by
  simp [decodeStartTime, h0, hlt]

/-- C1: gapless look-ahead scheduling.  While `playing` or `loading`: an
uninitialized `nextStartTime` (encoded 0) is seeded as `now + bufferTime`,
which becomes both the new unit's start time and the stream origin; when the
previous unit's end `u.startTime + u.buf.duration` is recorded in
`nextStartTime` and the device clock has not overtaken it, the new unit starts
exactly at that end; when the device clock has passed `nextStartTime`, the
start is clamped to `now`; and after every schedule `nextStartTime` again
records the last unit's start plus its buffer's duration. -/
theorem gapless_lookahead_scheduling (s : PlayerState) (buffer : AudioBuffer)
    (now : ℚ)
    (hps : s.playbackState = .playing ∨ s.playbackState = .loading) :
    (s.nextStartTime = 0 →
      (decodeComplete s buffer now).activeSources
        = s.activeSources ++ [⟨buffer, now + bufferTime, 0⟩]
      ∧ (decodeComplete s buffer now).streamStartTime = now + bufferTime)
    ∧ (∀ u, s.activeSources.getLast? = some u →
        s.nextStartTime = u.startTime + u.buf.duration →
        s.nextStartTime ≠ 0 → now ≤ s.nextStartTime →
        (decodeComplete s buffer now).activeSources
          = s.activeSources ++ [⟨buffer, u.startTime + u.buf.duration, 0⟩])
    ∧ (s.nextStartTime ≠ 0 → s.nextStartTime < now →
        (decodeComplete s buffer now).activeSources
          = s.activeSources ++ [⟨buffer, now, 0⟩])
    ∧ (∀ u, (decodeComplete s buffer now).activeSources.getLast? = some u →
        (decodeComplete s buffer now).nextStartTime
          = u.startTime + u.buf.duration) := by
  have h : ¬(s.playbackState = .paused ∨ s.playbackState = .stopped) := by
    rcases hps with hps | hps <;> simp [hps]
  obtain ⟨hsrc, hnext, hstream, -⟩ := decodeComplete_active s buffer now h
  refine ⟨?_, ?_, ?_, ?_⟩
  · intro h0
    constructor
    · rw [hsrc, decodeStartTime_seed s now h0]
    · rw [hstream, if_pos h0]
  · intro u hu hinv h0 hle
    rw [hsrc, decodeStartTime_keep s now h0 hle, hinv]
  · intro h0 hlt
    rw [hsrc, decodeStartTime_clamp s now h0 hlt]
  · intro u hu
    rw [hsrc, List.getLast?_concat] at hu
    injection hu with hu
    subst hu
    rw [hnext]

/-- state used to instantiate C1: playing, one live unit of duration 1
started at 5, `nextStartTime` at its end 6. -/
def gaplessWitnessState : PlayerState :=
  { initState with
    playbackState := .playing
    totalDuration := 1
    activeSources := [⟨⟨0, 1⟩, 5, 0⟩]
    decodedAudioBuffers := [⟨0, 1⟩]
    streamStartTime := 5
    nextStartTime := 6
    hasSession := true }

/-- C1 witness: a second buffer decoded at device time 5 is scheduled exactly
at the previous unit's start plus its duration, 5 + 1 = 6. -/
theorem gapless_lookahead_scheduling_witness :
    (decodeComplete gaplessWitnessState ⟨1, 1⟩ 5).activeSources
      = [⟨⟨0, 1⟩, 5, 0⟩, ⟨⟨1, 1⟩, 6, 0⟩] := by
  have h2 := (gapless_lookahead_scheduling gaplessWitnessState ⟨1, 1⟩ 5
      (Or.inl rfl)).2.1 ⟨⟨0, 1⟩, 5, 0⟩ rfl
      (by norm_num [gaplessWitnessState, initState])
      (by norm_num [gaplessWitnessState, initState])
      (by norm_num [gaplessWitnessState, initState])
  rw [h2]
  norm_num [gaplessWitnessState, initState]

/-! ## The cursor invariant over reachable states -/

/-- a progress tick cannot move the cursor away from 0 while `totalDuration`
is still 0. -/
lemma updateProgress_cursor_zero (s : PlayerState) (now : ℚ)
    (hc : s.currentPlaybackTime = 0) (ht : s.totalDuration = 0) :
    (updateProgress s now).currentPlaybackTime = 0 := by
  unfold updateProgress
  split
  · exact hc
  split
  · exact hc
  · show max 0 (min (now - s.streamStartTime) s.totalDuration) = 0
    rw [ht]
    exact max_eq_left (min_le_right _ _)

/-- invariant carried by every reachable state: while `loading` or `stopped`,
and while `paused` with no session, the cursor and `totalDuration` are both
still 0. -/
def cursorInv (s : PlayerState) : Prop :=
  (s.playbackState = .loading →
    s.currentPlaybackTime = 0 ∧ s.totalDuration = 0)
  ∧ (s.playbackState = .stopped →
    s.currentPlaybackTime = 0 ∧ s.totalDuration = 0)
  ∧ (s.hasSession = false → s.playbackState = .paused →
    s.currentPlaybackTime = 0 ∧ s.totalDuration = 0)

lemma cursorInv_updateProgress (s : PlayerState) (now : ℚ) (h : cursorInv s) :
    cursorInv (updateProgress s now) := by
  obtain ⟨h1, h2, h3⟩ := h
  refine ⟨?_, ?_, ?_⟩
  · intro ha
    rw [updateProgress_playbackState] at ha
    obtain ⟨hc, ht⟩ := h1 ha
    exact ⟨updateProgress_cursor_zero s now hc ht,
      by rw [updateProgress_totalDuration]; exact ht⟩
  · intro ha
    rw [updateProgress_playbackState] at ha
    obtain ⟨hc, ht⟩ := h2 ha
    exact ⟨updateProgress_cursor_zero s now hc ht,
      by rw [updateProgress_totalDuration]; exact ht⟩
  · intro ha hb
    rw [updateProgress_hasSession] at ha
    rw [updateProgress_playbackState] at hb
    obtain ⟨hc, ht⟩ := h3 ha hb
    exact ⟨updateProgress_cursor_zero s now hc ht,
      by rw [updateProgress_totalDuration]; exact ht⟩

lemma cursorInv_decodeComplete (s : PlayerState) (b : AudioBuffer) (now : ℚ)
    (h : cursorInv s) : cursorInv (decodeComplete s b now) := by
  by_cases hps : s.playbackState = .paused ∨ s.playbackState = .stopped
  · obtain ⟨hsrc, hnext, hc, ht, hpl, hst⟩ := decodeComplete_inactive s b now hps
    obtain ⟨h1, h2, h3⟩ := h
    refine ⟨?_, ?_, ?_⟩
    · intro ha
      rw [hpl] at ha
      rw [hc, ht]
      exact h1 ha
    · intro ha
      rw [hpl] at ha
      rw [hc, ht]
      exact h2 ha
    · intro ha hb
      rw [decodeComplete_hasSession] at ha
      rw [hpl] at hb
      rw [hc, ht]
      exact h3 ha hb
  · obtain ⟨-, -, -, hpl⟩ := decodeComplete_active s b now hps
    refine ⟨?_, ?_, ?_⟩
    · intro ha
      rw [hpl] at ha
      exact absurd ha (by decide)
    · intro ha
      rw [hpl] at ha
      exact absurd ha (by decide)
    · intro ha hb
      rw [hpl] at hb
      exact absurd hb (by decide)

lemma cursorInv_chunkArrival (s : PlayerState) (c : List ℕ) (h : cursorInv s) :
    cursorInv (chunkArrival s c) := h

lemma cursorInv_pauseAudio (s : PlayerState) (h : cursorInv s) :
    cursorInv (pauseAudio s) := by
  unfold pauseAudio clearAllSources
  split
  · exact h
  · rename_i hsess
    refine ⟨?_, ?_, ?_⟩
    · intro ha
      simp at ha
    · intro ha
      simp at ha
    · intro ha hb
      exact absurd ha hsess

lemma cursorInv_stopAudio (s : PlayerState) : cursorInv (stopAudio s) :=
  ⟨fun _ => ⟨rfl, rfl⟩, fun _ => ⟨rfl, rfl⟩, fun _ _ => ⟨rfl, rfl⟩⟩

lemma loadAudio_state (s : PlayerState) (now : ℚ) (hsess : s.hasSession = true) :
    loadAudio s now
      = { updateProgress s now with
          playbackState :=
            if s.playbackState = .paused then .playing else .loading
          gainTarget := 1 } := by
  unfold loadAudio
  rw [if_neg (by simp [hsess])]
  show ({ updateProgress s now with
      playbackState :=
        if (updateProgress s now).playbackState = .paused then .playing
        else .loading
      gainTarget := 1 } : PlayerState) = _
  rw [updateProgress_playbackState]

lemma cursorInv_loadAudio (s : PlayerState) (now : ℚ) (h : cursorInv s)
    (hns : s.playbackState ≠ .playing) : cursorInv (loadAudio s now) := by
  obtain ⟨h1, h2, h3⟩ := h
  by_cases hsess : s.hasSession = false
  · unfold loadAudio
    rw [if_pos hsess]
    exact ⟨h1, h2, h3⟩
  · have hsess2 : s.hasSession = true := by simpa using hsess
    rw [loadAudio_state s now hsess2]
    by_cases hp : s.playbackState = .paused
    · refine ⟨?_, ?_, ?_⟩
      · intro ha
        rw [show ({ updateProgress s now with
            playbackState :=
              if s.playbackState = .paused then .playing else .loading
            gainTarget := 1 } : PlayerState).playbackState
          = if s.playbackState = .paused then .playing else .loading from rfl,
          if_pos hp] at ha
        exact absurd ha (by decide)
      · intro ha
        rw [show ({ updateProgress s now with
            playbackState :=
              if s.playbackState = .paused then .playing else .loading
            gainTarget := 1 } : PlayerState).playbackState
          = if s.playbackState = .paused then .playing else .loading from rfl,
          if_pos hp] at ha
        exact absurd ha (by decide)
      · intro ha hb
        rw [show ({ updateProgress s now with
            playbackState :=
              if s.playbackState = .paused then .playing else .loading
            gainTarget := 1 } : PlayerState).hasSession
          = (updateProgress s now).hasSession from rfl,
          updateProgress_hasSession] at ha
        exact absurd ha hsess
    · have hsl : s.playbackState = .stopped ∨ s.playbackState = .loading := by
        cases hx : s.playbackState <;> simp_all
      have hz : s.currentPlaybackTime = 0 ∧ s.totalDuration = 0 := by
        rcases hsl with hx | hx
        · exact h2 hx
        · exact h1 hx
      refine ⟨?_, ?_, ?_⟩
      · intro ha
        exact ⟨updateProgress_cursor_zero s now hz.1 hz.2,
          by rw [show ({ updateProgress s now with
              playbackState :=
                if s.playbackState = .paused then .playing else .loading
              gainTarget := 1 } : PlayerState).totalDuration
            = (updateProgress s now).totalDuration from rfl,
            updateProgress_totalDuration]; exact hz.2⟩
      · intro ha
        rw [show ({ updateProgress s now with
            playbackState :=
              if s.playbackState = .paused then .playing else .loading
            gainTarget := 1 } : PlayerState).playbackState
          = if s.playbackState = .paused then .playing else .loading from rfl,
          if_neg hp] at ha
        exact absurd ha (by decide)
      · intro ha hb
        rw [show ({ updateProgress s now with
            playbackState :=
              if s.playbackState = .paused then .playing else .loading
            gainTarget := 1 } : PlayerState).hasSession
          = (updateProgress s now).hasSession from rfl,
          updateProgress_hasSession] at ha
        exact absurd ha hsess

lemma cursorInv_seekToTime (s : PlayerState) (now seekTime : ℚ)
    (h : cursorInv s) (hstop : s.playbackState ≠ .stopped)
    (htot : s.totalDuration ≠ 0) : cursorInv (seekToTime s now seekTime) := by
  obtain ⟨h1, h2, h3⟩ := h
  have hnl : s.playbackState ≠ .loading := fun hx => htot (h1 hx).2
  have hres : (seekToTime s now seekTime).playbackState = .playing := by
    rw [seekToTime_playbackState]
    by_cases hp : s.playbackState = .paused
    · simp [hp]
    · cases hx : s.playbackState <;> simp_all
  refine ⟨?_, ?_, ?_⟩
  · intro ha
    rw [hres] at ha
    exact absurd ha (by decide)
  · intro ha
    rw [hres] at ha
    exact absurd ha (by decide)
  · intro ha hb
    rw [hres] at hb
    exact absurd hb (by decide)

lemma cursorInv_connectStart (s : PlayerState) (h : cursorInv s)
    (hsess : s.hasSession = false)
    (hst : s.playbackState = .stopped ∨ s.playbackState = .paused) :
    cursorInv (connectStart s) := by
  obtain ⟨h1, h2, h3⟩ := h
  have hz : s.currentPlaybackTime = 0 ∧ s.totalDuration = 0 := by
    rcases hst with hx | hx
    · exact h2 hx
    · exact h3 hsess hx
  refine ⟨fun _ => hz, ?_, ?_⟩
  · intro ha
    simp [connectStart] at ha
  · intro _ hb
    simp [connectStart] at hb

lemma cursorInv_connectSuccess (s : PlayerState) (now : ℚ) (h : cursorInv s)
    (hl : s.playbackState = .loading) : cursorInv (connectSuccess s now) := by
  obtain ⟨h1, h2, h3⟩ := h
  have h4 : cursorInv { s with hasSession := true } :=
    ⟨h1, h2, fun ha _ => by simp at ha⟩
  exact cursorInv_loadAudio _ now h4 (by simp [hl])

lemma cursorInv_connectFail (s : PlayerState) (h : cursorInv s)
    (hl : s.playbackState = .loading) : cursorInv (connectFail s) := by
  obtain ⟨h1, h2, h3⟩ := h
  refine ⟨?_, fun _ => h1 hl, ?_⟩
  · intro ha
    simp [connectFail] at ha
  · intro _ hb
    simp [connectFail] at hb

/-- every reachable state satisfies the cursor invariant. -/
theorem reachable_cursorInv (s : PlayerState) (h : Reachable s) : cursorInv s := by
  induction h with
  | init =>
    exact ⟨fun ha => absurd ha (by decide), fun _ => ⟨rfl, rfl⟩,
      fun _ hb => absurd hb (by decide)⟩
  | connectStart hr hsess hst ih => exact cursorInv_connectStart _ ih hsess hst
  | connectSuccess now hr hsess hl ih => exact cursorInv_connectSuccess _ now ih hl
  | connectFail hr hl ih => exact cursorInv_connectFail _ ih hl
  | chunkArrival chunk hr ih => exact cursorInv_chunkArrival _ chunk ih
  | decodeComplete b now hr ih => exact cursorInv_decodeComplete _ b now ih
  | updateProgress now hr ih => exact cursorInv_updateProgress _ now ih
  | pauseAudio hr ih => exact cursorInv_pauseAudio _ ih
  | loadAudio now hr hsess hns ih => exact cursorInv_loadAudio _ now ih hns
  | stopAudio hr ih => exact cursorInv_stopAudio _
  | seekToTime now seekTime hr hstop htot ih =>
      exact cursorInv_seekToTime _ now seekTime ih hstop htot

/-- C8: over every reachable state, the playback-time cursor is changed by a
progress tick only while the transport is `playing`: in `stopped`, `loading`
and `paused` every `updateProgress` step leaves `currentPlaybackTime` exactly
as it was (while `loading` the guard does run the update, but the cursor and
`totalDuration` are still 0 there, so the written value is again 0). -/
theorem cursor_only_advances_when_playing (s : PlayerState) (h : Reachable s)
    (hps : s.playbackState ≠ .playing) (now : ℚ) :
    (updateProgress s now).currentPlaybackTime = s.currentPlaybackTime := by
  obtain ⟨h1, h2, h3⟩ := reachable_cursorInv s h
  by_cases hseek : s.isSeeking = true
  · rw [updateProgress_currentPlaybackTime_frozen s now (Or.inl hseek)]
  · cases hx : s.playbackState with
    | playing => exact absurd hx hps
    | loading =>
      obtain ⟨hc, ht⟩ := h1 hx
      rw [updateProgress_cursor_zero s now hc ht, hc]
    | stopped =>
      rw [updateProgress_currentPlaybackTime_frozen s now
        (Or.inr ⟨by simp [hx], by simp [hx]⟩)]
    | paused =>
      rw [updateProgress_currentPlaybackTime_frozen s now
        (Or.inr ⟨by simp [hx], by simp [hx]⟩)]

/-- C8 witness: in the reachable `loading` state right after a successful
connection, a progress tick at device time 7 leaves the cursor unchanged. -/
theorem cursor_only_advances_when_playing_witness :
    (updateProgress (connectSuccess (connectStart initState) 0) 7).currentPlaybackTime
      = (connectSuccess (connectStart initState) 0).currentPlaybackTime :=
  cursor_only_advances_when_playing (connectSuccess (connectStart initState) 0)
    (Reachable.connectSuccess 0
      (Reachable.connectStart Reachable.init rfl (Or.inl rfl)) rfl rfl)
    (by decide) 7

/-- C9: the ChunkStore (`receivedAudioChunks`) is append-only for the life of
a session: pause leaves it untouched (as it leaves the decoded timeline),
and so do load, progress ticks, seeks and decode completions; only a chunk
arrival extends it and only the explicit reset (`stopAudio`) empties it. -/
theorem chunkstore_append_only (s : PlayerState) (buffer : AudioBuffer)
    (now seekTime : ℚ) (chunk : List ℕ) :
    (pauseAudio s).receivedAudioChunks = s.receivedAudioChunks
    ∧ (pauseAudio s).decodedAudioBuffers = s.decodedAudioBuffers
    ∧ (loadAudio s now).receivedAudioChunks = s.receivedAudioChunks
    ∧ (updateProgress s now).receivedAudioChunks = s.receivedAudioChunks
    ∧ (seekToTime s now seekTime).receivedAudioChunks = s.receivedAudioChunks
    ∧ (decodeComplete s buffer now).receivedAudioChunks = s.receivedAudioChunks
    ∧ (chunkArrival s chunk).receivedAudioChunks
        = s.receivedAudioChunks ++ [chunk]
    ∧ (stopAudio s).receivedAudioChunks = [] := by
  refine ⟨?_, ?_, ?_, by simp, by simp, by simp, rfl, rfl⟩
  · unfold pauseAudio clearAllSources
    split <;> rfl
  · unfold pauseAudio clearAllSources
    split <;> rfl
  · unfold loadAudio
    split <;> simp

/-- C10: a decode that completes while the transport is `paused` or `stopped`
still appends its buffer to the timeline, but creates no scheduled unit, adds
nothing to `totalDuration` and leaves `nextStartTime` untouched; and no
operation other than a seek ever schedules a previously skipped buffer: a
decode completion only ever starts a unit for its own buffer, while pause,
load and progress ticks never extend the live set. -/
theorem decode_while_paused_deferred (s t : PlayerState)
    (buffer bufferT : AudioBuffer) (now nowT : ℚ)
    (h : s.playbackState = .paused ∨ s.playbackState = .stopped) :
    (decodeComplete s buffer now).decodedAudioBuffers
        = s.decodedAudioBuffers ++ [buffer]
    ∧ (decodeComplete s buffer now).activeSources = s.activeSources
    ∧ (decodeComplete s buffer now).totalDuration = s.totalDuration
    ∧ (decodeComplete s buffer now).nextStartTime = s.nextStartTime
    ∧ (∀ u ∈ (decodeComplete t bufferT nowT).activeSources,
        u ∈ t.activeSources ∨ u.buf = bufferT)
    ∧ (∀ u ∈ (pauseAudio t).activeSources, u ∈ t.activeSources)
    ∧ (loadAudio t nowT).activeSources = t.activeSources
    ∧ (updateProgress t nowT).activeSources = t.activeSources := by
  obtain ⟨hsrc, hnext, -, ht, -, -⟩ := decodeComplete_inactive s buffer now h
  refine ⟨by simp, hsrc, ht, hnext, ?_, ?_, ?_, by simp⟩
  · intro u hu
    by_cases hps : t.playbackState = .paused ∨ t.playbackState = .stopped
    · rw [(decodeComplete_inactive t bufferT nowT hps).1] at hu
      exact Or.inl hu
    · rw [(decodeComplete_active t bufferT nowT hps).1] at hu
      rcases List.mem_append.mp hu with hu | hu
      · exact Or.inl hu
      · rcases List.mem_singleton.mp hu with rfl
        exact Or.inr rfl
  · intro u hu
    unfold pauseAudio clearAllSources at hu
    split at hu
    · exact hu
    · simp at hu
  · unfold loadAudio
    split <;> simp

/-- state used to instantiate C10: paused mid-session with one decoded
buffer already accounted. -/
def pausedWitnessState : PlayerState :=
  { initState with
    playbackState := .paused
    hasSession := true
    totalDuration := 1
    currentPlaybackTime := 1
    decodedAudioBuffers := [⟨0, 1⟩]
    nextStartTime := 2
    streamStartTime := 5 }

/-- C10 witness: a buffer decoded at device time 9 while paused lands in the
timeline but leaves `totalDuration` and `nextStartTime` untouched. -/
theorem decode_while_paused_deferred_witness :
    (decodeComplete pausedWitnessState ⟨1, 1⟩ 9).decodedAudioBuffers
        = [⟨0, 1⟩, ⟨1, 1⟩]
    ∧ (decodeComplete pausedWitnessState ⟨1, 1⟩ 9).totalDuration = 1
    ∧ (decodeComplete pausedWitnessState ⟨1, 1⟩ 9).nextStartTime = 2
    ∧ (decodeComplete pausedWitnessState ⟨1, 1⟩ 9).activeSources = [] := by
  obtain ⟨h1, h2, h3, h4, -⟩ := decode_while_paused_deferred pausedWitnessState
    pausedWitnessState ⟨1, 1⟩ ⟨1, 1⟩ 9 9 (Or.inl rfl)
  exact ⟨by rw [h1]; rfl, by rw [h3]; rfl, by rw [h4]; rfl, by rw [h2]; rfl⟩

lemma decodeComplete_totalDuration_active (s : PlayerState) (b : AudioBuffer)
    (now : ℚ) (h : ¬(s.playbackState = .paused ∨ s.playbackState = .stopped)) :
    (decodeComplete s b now).totalDuration = s.totalDuration + b.duration := by
  simp only [decodeComplete]
  repeat' split
  all_goals simp_all

/-- C3 amended: `totalDuration` tracks only the buffers whose decode completed
while the transport was `playing` or `loading` (a buffer decoded while paused
or stopped enters the timeline without being counted), it never decreases
under any operation, and only the explicit reset (`stopAudio`) returns it
to 0. -/
theorem totalDuration_tracks_scheduled_only (s : PlayerState)
    (buffer : AudioBuffer) (now seekTime : ℚ) (chunk : List ℕ)
    (hd : 0 ≤ buffer.duration) :
    ((s.playbackState = .playing ∨ s.playbackState = .loading) →
      (decodeComplete s buffer now).totalDuration
        = s.totalDuration + buffer.duration)
    ∧ ((s.playbackState = .paused ∨ s.playbackState = .stopped) →
      (decodeComplete s buffer now).totalDuration = s.totalDuration
      ∧ (decodeComplete s buffer now).decodedAudioBuffers
          = s.decodedAudioBuffers ++ [buffer])
    ∧ s.totalDuration ≤ (decodeComplete s buffer now).totalDuration
    ∧ (pauseAudio s).totalDuration = s.totalDuration
    ∧ (loadAudio s now).totalDuration = s.totalDuration
    ∧ (updateProgress s now).totalDuration = s.totalDuration
    ∧ (seekToTime s now seekTime).totalDuration = s.totalDuration
    ∧ (chunkArrival s chunk).totalDuration = s.totalDuration
    ∧ (stopAudio s).totalDuration = 0 := by
  refine ⟨?_, ?_, ?_, ?_, ?_, by simp, by simp, rfl, rfl⟩
  · intro hps
    refine decodeComplete_totalDuration_active s buffer now ?_
    rcases hps with hps | hps <;> simp [hps]
  · intro hps
    exact ⟨(decodeComplete_inactive s buffer now hps).2.2.2.1, by simp⟩
  · by_cases hps : s.playbackState = .paused ∨ s.playbackState = .stopped
    · rw [(decodeComplete_inactive s buffer now hps).2.2.2.1]
    · rw [decodeComplete_totalDuration_active s buffer now hps]
      linarith
  · unfold pauseAudio clearAllSources
    split <;> rfl
  · unfold loadAudio
    split <;> simp

/-- C3 witness: at the initial (stopped) state, a decode completion leaves
`totalDuration` unchanged and the reset pins it at 0. -/
theorem totalDuration_tracks_scheduled_only_witness :
    (decodeComplete initState ⟨0, 1⟩ 0).totalDuration = initState.totalDuration
    ∧ (stopAudio initState).totalDuration = 0 := by
  obtain ⟨-, h2, -, -, -, -, -, -, h9⟩ :=
    totalDuration_tracks_scheduled_only initState ⟨0, 1⟩ 0 0 [] (by norm_num)
  exact ⟨(h2 (Or.inr rfl)).1, h9⟩


/-! helper simp facts: distinct transport constructors are unequal, so simp
can resolve the transport conditionals inside evaluated states. -/

@[simp] lemma stopped_ne_playing :
    ¬ (PlaybackState.stopped = PlaybackState.playing) := by decide

@[simp] lemma stopped_ne_loading :
    ¬ (PlaybackState.stopped = PlaybackState.loading) := by decide

@[simp] lemma stopped_ne_paused :
    ¬ (PlaybackState.stopped = PlaybackState.paused) := by decide

@[simp] lemma playing_ne_stopped :
    ¬ (PlaybackState.playing = PlaybackState.stopped) := by decide

@[simp] lemma playing_ne_loading :
    ¬ (PlaybackState.playing = PlaybackState.loading) := by decide

@[simp] lemma playing_ne_paused :
    ¬ (PlaybackState.playing = PlaybackState.paused) := by decide

@[simp] lemma loading_ne_stopped :
    ¬ (PlaybackState.loading = PlaybackState.stopped) := by decide

@[simp] lemma loading_ne_playing :
    ¬ (PlaybackState.loading = PlaybackState.playing) := by decide

@[simp] lemma loading_ne_paused :
    ¬ (PlaybackState.loading = PlaybackState.paused) := by decide

@[simp] lemma paused_ne_stopped :
    ¬ (PlaybackState.paused = PlaybackState.stopped) := by decide

@[simp] lemma paused_ne_playing :
    ¬ (PlaybackState.paused = PlaybackState.playing) := by decide

@[simp] lemma paused_ne_loading :
    ¬ (PlaybackState.paused = PlaybackState.loading) := by decide

/-- reachable state used against C3 as stated: buffer 0 (duration 1) decoded
while playing, then pause, then buffer 1 (duration 1) decoded while paused. -/
def timelineMismatchState : PlayerState :=
  decodeComplete
    (pauseAudio
      (decodeComplete (connectSuccess (connectStart initState) 0) ⟨0, 1⟩ 0))
    ⟨1, 1⟩ 2

/-- C3 counterexample: in the reachable state above the timeline holds 2
seconds of audio but `totalDuration` is 1, so `totalDuration` does not equal
the sum of the durations of the buffers held in the timeline. -/
theorem totalDuration_timeline_mismatch :
    Reachable timelineMismatchState
    ∧ timelineMismatchState.totalDuration = 1
    ∧ sumDur timelineMismatchState.decodedAudioBuffers = 2
    ∧ timelineMismatchState.totalDuration
        ≠ sumDur timelineMismatchState.decodedAudioBuffers := by
  have htot : timelineMismatchState.totalDuration = 1 := by
    norm_num [timelineMismatchState, decodeComplete, pauseAudio,
      clearAllSources, connectSuccess, connectStart, loadAudio, updateProgress,
      initState, bufferTime]
    try decide
  have hdec : timelineMismatchState.decodedAudioBuffers = [⟨0, 1⟩, ⟨1, 1⟩] := by
    norm_num [timelineMismatchState, decodeComplete, pauseAudio,
      clearAllSources, connectSuccess, connectStart, loadAudio, updateProgress,
      initState, bufferTime]
    try decide
  refine ⟨?_, htot, ?_, ?_⟩
  · exact Reachable.decodeComplete ⟨1, 1⟩ 2
      (Reachable.pauseAudio
        (Reachable.decodeComplete ⟨0, 1⟩ 0
          (Reachable.connectSuccess 0
            (Reachable.connectStart Reachable.init rfl (Or.inl rfl)) rfl rfl)))
  · rw [hdec]
    norm_num [sumDur]
  · rw [htot, hdec]
    norm_num [sumDur]

/-- reachable state used against C2: the chunks [7] and [8] arrive in that
order, but the decode of the second chunk (buffer 1) resolves before the
decode of the first chunk (buffer 0). -/
def outOfOrderState : PlayerState :=
  decodeComplete
    (decodeComplete
      (chunkArrival
        (chunkArrival (connectSuccess (connectStart initState) 0) [7]) [8])
      ⟨1, 1⟩ 0)
    ⟨0, 1⟩ 1

/-- C2: the `decodeAudioData(...).then` callback pushes each decoded buffer in
promise-resolution order, so when decodes complete out of order the timeline
order diverges from the ChunkStore arrival order: here the store is
[[7], [8]] but the timeline is buffer 1 before buffer 0, not the arrival
order. -/
theorem timeline_completion_order_bug :
    Reachable outOfOrderState
    ∧ outOfOrderState.receivedAudioChunks = [[7], [8]]
    ∧ outOfOrderState.decodedAudioBuffers = [⟨1, 1⟩, ⟨0, 1⟩]
    ∧ outOfOrderState.decodedAudioBuffers ≠ [⟨0, 1⟩, ⟨1, 1⟩] := by
  refine ⟨?_, ?_, ?_, ?_⟩
  · exact Reachable.decodeComplete ⟨0, 1⟩ 1
      (Reachable.decodeComplete ⟨1, 1⟩ 0
        (Reachable.chunkArrival [8]
          (Reachable.chunkArrival [7]
            (Reachable.connectSuccess 0
              (Reachable.connectStart Reachable.init rfl (Or.inl rfl)) rfl
              rfl))))
  all_goals
    norm_num [outOfOrderState, decodeComplete, chunkArrival, connectSuccess,
      connectStart, loadAudio, updateProgress, initState, bufferTime]

/-! ## Seek scheduling -/

/-- buffers before the located one are skipped: as long as every cumulative
end stays strictly below the seek target, the scan just accumulates. -/
lemma seekLoop_skip (seekTime : ℚ) (pre l : List AudioBuffer) (acc : ℚ)
    (s : PlayerState) (hnn : ∀ x ∈ pre, 0 ≤ x.duration)
    (hlt : acc + sumDur pre < seekTime) :
    seekLoop seekTime (pre ++ l) acc false s
      = seekLoop seekTime l (acc + sumDur pre) false s := by
  induction pre generalizing acc with
  | nil => simp
  | cons x xs ih =>
    have hxs : ∀ y ∈ xs, 0 ≤ y.duration := fun y hy =>
      hnn y (List.mem_cons_of_mem x hy)
    have hsum : 0 ≤ sumDur xs := sumDur_nonneg xs hxs
    have hx : 0 ≤ x.duration := hnn x (List.mem_cons_self x xs)
    have hlt2 : acc + x.duration + sumDur xs < seekTime := by
      rw [sumDur_cons] at hlt
      linarith
    have hend : ¬ seekTime ≤ acc + x.duration := by
      rw [not_le]
      linarith
    have hacc : acc + sumDur (x :: xs) = acc + x.duration + sumDur xs := by
      rw [sumDur_cons]
      ring
    rw [hacc]
    show seekLoop seekTime (x :: (xs ++ l)) acc false s = _
    simp only [seekLoop]
    rw [if_neg (by simp [hend]), if_neg (by simp)]
    exact ih (acc + x.duration) hxs hlt2

/-- the located buffer: at a cumulative end meeting the target, the scan
schedules it with the partial offset and continues in scheduled mode. -/
lemma seekLoop_boundary (seekTime : ℚ) (b : AudioBuffer)
    (l : List AudioBuffer) (acc : ℚ) (s : PlayerState)
    (hacc : acc + b.duration = seekTime) :
    seekLoop seekTime (b :: l) acc false s
      = seekLoop seekTime l seekTime true
          (scheduleBuffer s b s.nextStartTime (seekTime - acc)) := by
  simp only [seekLoop]
  rw [if_pos ⟨trivial, le_of_eq hacc.symm⟩, hacc]

/-- once a buffer has been scheduled, every later buffer is scheduled in turn
with zero offset. -/
lemma seekLoop_scheduled_cons (seekTime : ℚ) (b : AudioBuffer)
    (l : List AudioBuffer) (acc : ℚ) (s : PlayerState) :
    seekLoop seekTime (b :: l) acc true s
      = seekLoop seekTime l (acc + b.duration) true
          (scheduleBuffer s b s.nextStartTime 0) := by
  simp only [seekLoop]
  rw [if_neg (by simp), if_pos trivial]

/-- units the scan creates for the buffers after the located one: back to
back, each with zero offset, starting at the given device time. -/
def backToBack (startTime : ℚ) : List AudioBuffer → List ScheduledUnit
  | [] => []
  | b :: rest => ⟨b, startTime, 0⟩ :: backToBack (startTime + (b.duration - 0)) rest

lemma seekLoop_scheduled_sources (seekTime : ℚ) (l : List AudioBuffer)
    (acc : ℚ) (s : PlayerState) :
    (seekLoop seekTime l acc true s).activeSources
      = s.activeSources ++ backToBack s.nextStartTime l := by
  induction l generalizing acc s with
  | nil => simp [seekLoop, backToBack]
  | cons x xs ih =>
    rw [seekLoop_scheduled_cons, ih]
    simp [backToBack]

/-- the trailing paused-to-playing flip of `seekToTime` does not change the
set of scheduled units the scan produced. -/
lemma seekToTime_activeSources (s : PlayerState) (now seekTime : ℚ) :
    (seekToTime s now seekTime).activeSources
      = (seekLoop seekTime s.decodedAudioBuffers 0 false
          { (clearAllSources s) with
            currentPlaybackTime := seekTime
            streamStartTime := now - seekTime
            nextStartTime := now }).activeSources := by
  simp only [seekToTime]
  split <;> rfl

/-- the full schedule a seek to the exact cumulative end of buffer `b`
produces: a zero-length unit of `b` itself (offset = full duration) at the
seek start time, then the following buffers back to back from that same
time. -/
lemma seekToTime_boundary_sources (s : PlayerState) (now : ℚ)
    (pre rest : List AudioBuffer) (b : AudioBuffer)
    (hdec : s.decodedAudioBuffers = pre ++ b :: rest)
    (hnn : ∀ x ∈ pre, 0 ≤ x.duration) (hb : 0 < b.duration) :
    (seekToTime s now (sumDur pre + b.duration)).activeSources
      = ⟨b, now, b.duration⟩ :: backToBack now rest := by
  rw [seekToTime_activeSources, hdec]
  rw [seekLoop_skip _ pre (b :: rest) 0 _ hnn (by linarith)]
  rw [seekLoop_boundary _ _ _ _ _ (by ring)]
  rw [seekLoop_scheduled_sources]
  rw [show sumDur pre + b.duration - (0 + sumDur pre) = b.duration by ring]
  simp [sub_self, clearAllSources]

/-- C4 amended: for a seek to exactly the cumulative end of buffer `b`, the
scan locates `b` itself (its end satisfies `bufferEnd >= seekTime`) and
schedules it with intra-buffer offset equal to its full duration — a
zero-length unit — at the seek start time; the following buffer starts at
that same device time with offset 0, and the remaining buffers follow back to
back, so audible playback does resume at buffer i+1 with offset 0 even though
a zero-length unit of the boundary buffer is also created. -/
theorem seek_boundary_schedules_zero_length (s : PlayerState) (now : ℚ)
    (pre rest : List AudioBuffer) (b bNext : AudioBuffer)
    (hdec : s.decodedAudioBuffers = pre ++ b :: bNext :: rest)
    (hnn : ∀ x ∈ pre, 0 ≤ x.duration) (hb : 0 < b.duration) :
    (seekToTime s now (sumDur pre + b.duration)).activeSources
      = ⟨b, now, b.duration⟩ :: ⟨bNext, now, 0⟩
          :: backToBack (now + (bNext.duration - 0)) rest := by
  rw [seekToTime_boundary_sources s now pre (bNext :: rest) b hdec hnn hb]
  rfl

/-- state used against C4: playing, with the two-buffer timeline
[buffer 0 (1 s), buffer 1 (1 s)]. -/
def seekBoundaryState : PlayerState :=
  { initState with
    playbackState := .playing
    hasSession := true
    totalDuration := 2
    decodedAudioBuffers := [⟨0, 1⟩, ⟨1, 1⟩]
    streamStartTime := 3
    nextStartTime := 12 }

/-- C4 counterexample: seeking to 1 — the exact cumulative end of buffer 0 —
creates the unit (buffer 0, start 10, offset 1), whose intra-buffer offset
equals its buffer's full duration: a zero-length play of the boundary buffer
is scheduled. -/
theorem seek_boundary_counterexample :
    (seekToTime seekBoundaryState 10 1).activeSources
      = [⟨⟨0, 1⟩, 10, 1⟩, ⟨⟨1, 1⟩, 10, 0⟩]
    ∧ ∃ u ∈ (seekToTime seekBoundaryState 10 1).activeSources,
        u.offset = u.buf.duration := by
  have h : (seekToTime seekBoundaryState 10 1).activeSources
      = [⟨⟨0, 1⟩, 10, 1⟩, ⟨⟨1, 1⟩, 10, 0⟩] := by
    norm_num [seekToTime, seekLoop, scheduleBuffer, clearAllSources,
      seekBoundaryState, initState]
    try decide
  refine ⟨h, ⟨⟨0, 1⟩, 10, 1⟩, ?_, rfl⟩
  rw [h]
  exact List.mem_cons_self _ _

/-- C4 witness: on the two-buffer timeline, the seek to the boundary yields
exactly the zero-length boundary unit followed by the second buffer at
offset 0. -/
theorem seek_boundary_schedules_zero_length_witness :
    (seekToTime seekBoundaryState 10 1).activeSources
      = [⟨⟨0, 1⟩, 10, 1⟩, ⟨⟨1, 1⟩, 10, 0⟩] := by
  have h := seek_boundary_schedules_zero_length seekBoundaryState 10 [] []
    ⟨0, 1⟩ ⟨1, 1⟩ rfl (by simp) (by norm_num)
  rw [show (sumDur [] + (⟨0, 1⟩ : AudioBuffer).duration) = (1 : ℚ) by
    norm_num [sumDur]] at h
  rw [h]
  rfl

/-- C5 amended: seeking to the timeline's total duration does not schedule
nothing — it schedules exactly one unit, the last buffer with intra-buffer
offset equal to its full duration (zero audible samples); no unit with offset
strictly beyond its buffer's duration is created, but one with offset exactly
at it is. -/
theorem seek_to_total_schedules_last_zero_length (s : PlayerState) (now : ℚ)
    (pre : List AudioBuffer) (b : AudioBuffer)
    (hdec : s.decodedAudioBuffers = pre ++ [b])
    (hnn : ∀ x ∈ pre, 0 ≤ x.duration) (hb : 0 < b.duration) :
    (seekToTime s now (sumDur s.decodedAudioBuffers)).activeSources
      = [⟨b, now, b.duration⟩] := by
  have hT : sumDur s.decodedAudioBuffers = sumDur pre + b.duration := by
    rw [hdec]
    simp
  rw [hT, seekToTime_boundary_sources s now pre [] b hdec hnn hb]
  rfl

/-- state used against C5: playing, with the single-buffer timeline
[buffer 0 (1 s)]. -/
def seekEndState : PlayerState :=
  { initState with
    playbackState := .playing
    hasSession := true
    totalDuration := 1
    decodedAudioBuffers := [⟨0, 1⟩]
    streamStartTime := 2
    nextStartTime := 6 }

/-- C5 counterexample: seeking to the total duration 1 of the one-buffer
timeline schedules one (zero-length) unit, not none. -/
theorem seek_to_total_counterexample :
    sumDur seekEndState.decodedAudioBuffers = 1
    ∧ (seekToTime seekEndState 5 1).activeSources = [⟨⟨0, 1⟩, 5, 1⟩]
    ∧ (seekToTime seekEndState 5 1).activeSources ≠ [] := by
  have h : (seekToTime seekEndState 5 1).activeSources = [⟨⟨0, 1⟩, 5, 1⟩] := by
    norm_num [seekToTime, seekLoop, scheduleBuffer, clearAllSources,
      seekEndState, initState]
    try decide
  refine ⟨by norm_num [seekEndState, initState, sumDur], h, ?_⟩
  rw [h]
  simp

/-- C5 witness: on the one-buffer timeline the seek to the total duration
produces exactly the zero-length unit of the last buffer. -/
theorem seek_to_total_schedules_last_zero_length_witness :
    (seekToTime seekEndState 5 (sumDur seekEndState.decodedAudioBuffers)).activeSources
      = [⟨⟨0, 1⟩, 5, 1⟩] :=
  seek_to_total_schedules_last_zero_length seekEndState 5 [] ⟨0, 1⟩ rfl
    (by simp) (by norm_num)

/-- C6 amended: a resume from `paused` transitions the transport to `playing`
and ramps the gain back up, but re-derives no scheduling plan — the live-unit
set stays exactly as pause left it and the cursor is not restored: the first
progress tick after the resume reads
clamp(deviceNow - streamStartTime, 0, totalDuration), which exceeds the
cursor at the pause moment by the wall-clock duration of the pause. -/
theorem resume_no_replan (s : PlayerState) (now now2 : ℚ)
    (hsess : s.hasSession = true) (hps : s.playbackState = .paused)
    (hseek : s.isSeeking = false) :
    (loadAudio s now).playbackState = .playing
    ∧ (loadAudio s now).gainTarget = 1
    ∧ (loadAudio s now).activeSources = s.activeSources
    ∧ (loadAudio s now).currentPlaybackTime = s.currentPlaybackTime
    ∧ (updateProgress (loadAudio s now) now2).currentPlaybackTime
        = max 0 (min (now2 - s.streamStartTime) s.totalDuration) := by
  have heq : updateProgress s now = s := by
    unfold updateProgress
    split
    · rfl
    · rw [if_pos ⟨by simp [hps], by simp [hps]⟩]
  rw [loadAudio_state s now hsess, heq]
  refine ⟨by simp [hps], rfl, rfl, rfl, ?_⟩
  rw [updateProgress_currentPlaybackTime_active _ now2 (by simpa using hseek)
    (Or.inl (by simp [hps]))]

/-- reachable run used against C6: a 100-second buffer starts playing at
device time 0 (stream origin 1 after the look-ahead), the cursor reaches 10
at device time 11, the user pauses, and resumes 5 seconds of wall time later
at device time 16. -/
def resumeBaseState : PlayerState :=
  updateProgress
    (decodeComplete (connectSuccess (connectStart initState) 0) ⟨0, 100⟩ 0) 11

/-- the paused state of that run. -/
def resumePausedState : PlayerState := pauseAudio resumeBaseState

/-- the state right after the resume of that run. -/
def resumeResumedState : PlayerState := loadAudio resumePausedState 16

/-- field-by-field value of the paused state of the C6 run. -/
lemma resumePausedState_eval :
    resumePausedState
      = { initState with
          playbackState := .paused
          totalDuration := 100
          currentPlaybackTime := 10
          decodedAudioBuffers := [⟨0, 100⟩]
          streamStartTime := 1
          nextStartTime := 101
          hasSession := true
          gainTarget := 0 } := by
  norm_num [resumePausedState, resumeBaseState, pauseAudio, clearAllSources,
    updateProgress, decodeComplete, connectSuccess, connectStart, loadAudio,
    initState, bufferTime]
  try decide

/-- C6 counterexample: the pause lasted 5 seconds of device time with no
intervening appends, yet the first cursor read after the resume is 15, not
the 10 at which playback was paused — the discontinuity equals the pause
duration — and no unit is scheduled by the resume although the timeline is
non-empty. -/
theorem resume_discontinuity_counterexample :
    Reachable resumeResumedState
    ∧ resumePausedState.currentPlaybackTime = 10
    ∧ resumeResumedState.playbackState = .playing
    ∧ resumeResumedState.activeSources = []
    ∧ resumePausedState.decodedAudioBuffers ≠ []
    ∧ (updateProgress resumeResumedState 16).currentPlaybackTime = 15 := by
  have hsess2 : resumePausedState.hasSession = true := by
    rw [resumePausedState_eval]
  have hnp : resumePausedState.playbackState ≠ .playing := by
    rw [resumePausedState_eval]
    decide
  have hres : resumeResumedState
      = { initState with
          playbackState := .playing
          totalDuration := 100
          currentPlaybackTime := 10
          decodedAudioBuffers := [⟨0, 100⟩]
          streamStartTime := 1
          nextStartTime := 101
          hasSession := true
          gainTarget := 1 } := by
    rw [resumeResumedState, resumePausedState_eval]
    norm_num [loadAudio, updateProgress, initState]
    try decide
  refine ⟨?_, ?_, ?_, ?_, ?_, ?_⟩
  · exact Reachable.loadAudio 16
      (Reachable.pauseAudio
        (Reachable.updateProgress 11
          (Reachable.decodeComplete ⟨0, 100⟩ 0
            (Reachable.connectSuccess 0
              (Reachable.connectStart Reachable.init rfl (Or.inl rfl)) rfl
              rfl))))
      hsess2 hnp
  · rw [resumePausedState_eval]
  · rw [hres]
  · rw [hres]
    rfl
  · rw [resumePausedState_eval]
    simp
  · rw [hres]
    norm_num [updateProgress, initState]

/-- C6 witness: resuming the paused run at device time 16 flips the transport
to `playing`, restores the gain, schedules nothing, and the next progress
tick reads the clamp formula (here 15) rather than the paused cursor. -/
theorem resume_no_replan_witness :
    (loadAudio resumePausedState 16).playbackState = .playing
    ∧ (loadAudio resumePausedState 16).gainTarget = 1
    ∧ (loadAudio resumePausedState 16).activeSources
        = resumePausedState.activeSources
    ∧ (loadAudio resumePausedState 16).currentPlaybackTime
        = resumePausedState.currentPlaybackTime
    ∧ (updateProgress (loadAudio resumePausedState 16) 16).currentPlaybackTime
        = max 0 (min (16 - resumePausedState.streamStartTime)
            resumePausedState.totalDuration) :=
  resume_no_replan resumePausedState 16 16
    (by rw [resumePausedState_eval])
    (by rw [resumePausedState_eval])
    (by rw [resumePausedState_eval]; rfl)
